import Mathlib

/-!
Shallow embedding of `compare_apis.py` (APIComparator), the single source file
of this repository: an HTTP diffing harness that replays a list of endpoint
descriptors against two base URLs ("express" reference, "fastify" candidate)
and compares status codes, bodies and an allow-list of headers.

Machine-level conventions of the embedding:
- JSON values are a tagged tree (`Json`), the model of Python values produced
  by `response.json()`.
- The network is an oracle `Network : Request → ReqOutcome`; a `ReqOutcome.exn`
  models a raised `requests.exceptions.RequestException` (timeout, connection
  error, DNS failure), `ReqOutcome.ok` a delivered response.
- A `Response` carries the fields the script reads: `status_code`,
  `headers` (the case-insensitive header dict, modelled with lower-cased
  keys), `text`, and `jsonBody` (`some v` when `.json()` parses, `none` when
  it raises `json.JSONDecodeError`).
- Python's `ZeroDivisionError` in the summary of `run_test_suite` is modelled
  by an `Option` result (`none` = the uncaught exception).
- Printing (`print`, verbose markers) has no observable effect on the data
  the claims are about and is not modelled.
-/

/-- Tagged JSON tree: the model of the Python values returned by
`response.json()` (null, bool, number, string, sequence, mapping). -/
inductive Json where
  | null : Json
  | bool : Bool → Json
  | num : Int → Json
  | str : String → Json
  | arr : List Json → Json
  | obj : List (String × Json) → Json

/- Order-insensitive deep equality of JSON trees, with its list helpers.
This is the model of `len(DeepDiff(a, b, ignore_order=True)) == 0`:
scalars compare literally, sequences compare as sets of (deep-equal)
elements, mappings compare key-by-key in both directions. -/
mutual

def jsonEq : Json → Json → Bool
  | .null, .null => true
  | .bool x, .bool y => x == y
  | .num x, .num y => x == y
  | .str x, .str y => x == y
  | .arr xs, .arr ys => subsetEq xs ys && subsetEq ys xs
  | .obj fx, .obj fy => objSubEq fx fy && objSubEq fy fx
  | _, _ => false
termination_by a b => sizeOf a + sizeOf b
decreasing_by all_goals (simp_wf; try omega)

def subsetEq : List Json → List Json → Bool
  | [], _ => true
  | x :: xs, ys => memEq x ys && subsetEq xs ys
termination_by xs ys => sizeOf xs + sizeOf ys
decreasing_by all_goals (simp_wf; try omega)

def memEq : Json → List Json → Bool
  | _, [] => false
  | x, y :: ys => jsonEq x y || memEq x ys
termination_by x ys => sizeOf x + sizeOf ys
decreasing_by all_goals (simp_wf; try omega)

def objSubEq : List (String × Json) → List (String × Json) → Bool
  | [], _ => true
  | f :: fx, fy => objMemEq f fy && objSubEq fx fy
termination_by fx fy => sizeOf fx + sizeOf fy
decreasing_by all_goals (simp_wf; try omega)

def objMemEq : String × Json → List (String × Json) → Bool
  | _, [] => false
  | (k, v), (k2, w) :: fy => (k == k2 && jsonEq v w) || objMemEq (k, v) fy
termination_by f fy => sizeOf f + sizeOf fy
decreasing_by all_goals (simp_wf; try omega)

end

/-- Model of the `DeepDiff(express_json, fastify_json, ignore_order=True)`
dependency, represented by its observable content in this script: the
collection of difference entries, empty exactly when the order-insensitive
deep comparison finds no differences (the script only ever tests
`len(body_diff) == 0` and serializes the diff). -/
def deepDiffEntries (a b : Json) : List String :=
  if jsonEq a b then [] else ["values_changed"]

/-- The `body_diff` value stored in a comparison result: either the DeepDiff
of two parsed bodies, or the `{"text_diff": True}` marker of the text
fallback (`None`, i.e. no `BodyDiff`, when the fallback texts match). -/
inductive BodyDiff where
  | deep : List String → BodyDiff
  | textDiff : BodyDiff
deriving DecidableEq

/-- Body comparison of `compare_endpoint` (the try/except block around
`response.json()`): if both bodies parse as JSON, the DeepDiff decides;
if either `.json()` raises, fall back to exact text equality.
Returns (body_match, body_diff). -/
def compareBodies (expressJson fastifyJson : Option Json)
    (expressText fastifyText : String) : Bool × Option BodyDiff :=
  match expressJson, fastifyJson with
  | some ej, some fj =>
      let d := deepDiffEntries ej fj
      (d.length == 0, some (.deep d))
  | _, _ =>
      let m := expressText == fastifyText
      (m, if m then none else some .textDiff)

/-- An HTTP response as read by the script: `status_code`, the header dict
(keys normalised to lower case, modelling the case-insensitive dict of the
HTTP client), the raw `text`, and the result of `.json()` (`none` when it
raises `json.JSONDecodeError`). -/
structure Response where
  status_code : Nat
  headers : List (String × String)
  text : String
  jsonBody : Option Json

/-- The argument bundle of one `requests.request(method, url, json=body,
headers=headers, params=params, timeout=10)` call (the constant timeout is
not represented). -/
structure Request where
  method : String
  url : String
  body : Option Json
  headers : Option (List (String × String))
  params : Option (List (String × String))

/-- Builds the `Request` bundle for one call. -/
def mkRequest (m u : String) (b : Option Json)
    (hs ps : Option (List (String × String))) : Request :=
  { method := m, url := u, body := b, headers := hs, params := ps }

/-- Outcome of one HTTP call: a delivered response, or a raised
`requests.exceptions.RequestException` carrying its message. -/
inductive ReqOutcome where
  | ok : Response → ReqOutcome
  | exn : String → ReqOutcome

/-- The network oracle: what each issued request returns. -/
def Network := Request → ReqOutcome

/-- One recorded comparison: either the full comparison dict, or the
error-variant dict built in the `except RequestException` handler
(which has only the keys method/path/success/error). -/
inductive ComparisonResult where
  | mk (method path : String) (status_match body_match headers_match : Bool)
       (express_status fastify_status : Nat)
       (body_diff : Option BodyDiff)
       (header_diff : List (String × Option String × Option String))
       (success : Bool) : ComparisonResult
  | err (method path : String) (success : Bool) (error : String) : ComparisonResult
deriving DecidableEq

/-- The `result.get("success", False)` read used by the summary, report and
return value (the key is present in both dict shapes). -/
def ComparisonResult.getSuccess : ComparisonResult → Bool
  | .mk _ _ _ _ _ _ _ _ _ su => su
  | .err _ _ su _ => su

/-- The `result["method"]` read (present in both dict shapes). -/
def ComparisonResult.getMethod : ComparisonResult → String
  | .mk m _ _ _ _ _ _ _ _ _ => m
  | .err m _ _ _ => m

/-- Model of `urllib.parse.urljoin(base, path)` for the opaque use it has
here: the resolved URL is only ever consumed by the network oracle, so it is
represented as the base/path pairing. -/
def urljoin (base path : String) : String := base ++ path

/-- Model of Python `str.upper()`. -/
def pyUpper (s : String) : String := s.toUpper

/-- The fixed header allow-list `relevant_headers` of `compare_endpoint`. -/
def relevant_headers : List String := ["content-type", "content-length"]

/-- Model of `headers.get(header)` on the response header dict. -/
def headerGet (hs : List (String × String)) (k : String) : Option String :=
  (hs.find? (fun p => p.1 == k)).map (fun p => p.2)

/-- The header-comparison loop of `compare_endpoint`: for each header in the
allow-list, record `(header, express value, fastify value)` when the two
values differ. -/
def headerDiff (eh fh : List (String × String)) :
    List (String × Option String × Option String) :=
  relevant_headers.filterMap (fun header =>
    let exp_h := headerGet eh header
    let fast_h := headerGet fh header
    if exp_h ≠ fast_h then some (header, exp_h, fast_h) else none)

/-- The comparator instance state: the two stripped base URLs and the
append-only result log `self.results`. -/
structure APIComparator where
  express_base : String
  fastify_base : String
  results : List ComparisonResult

/-- The `__init__` of `APIComparator`: strips trailing slashes off both base
URLs and starts with an empty result log (the verbose flag only controls
printing and is not modelled). -/
def APIComparator.init (express_base fastify_base : String) : APIComparator :=
  { express_base := express_base.dropRightWhile (fun c => c == '/'),
    fastify_base := fastify_base.dropRightWhile (fun c => c == '/'),
    results := [] }

/-- The pure value computed by `compare_endpoint`: the try block issues the
express request then the fastify request; a raised RequestException on
either yields the error-variant dict; otherwise status codes, bodies and
allow-listed headers are compared. -/
def compareResult (net : Network) (express_base fastify_base method path : String)
    (body : Option Json) (headers params : Option (List (String × String))) :
    ComparisonResult :=
  let express_url := urljoin express_base path
  let fastify_url := urljoin fastify_base path
  match net (mkRequest method express_url body headers params) with
  | .exn e => .err (pyUpper method) path false e
  | .ok express_resp =>
    match net (mkRequest method fastify_url body headers params) with
    | .exn e => .err (pyUpper method) path false e
    | .ok fastify_resp =>
        let status_match := express_resp.status_code == fastify_resp.status_code
        let bodyCmp := compareBodies express_resp.jsonBody fastify_resp.jsonBody
          express_resp.text fastify_resp.text
        let header_diff := headerDiff express_resp.headers fastify_resp.headers
        .mk (pyUpper method) path status_match bodyCmp.1 header_diff.isEmpty
          express_resp.status_code fastify_resp.status_code
          bodyCmp.2 header_diff (status_match && bodyCmp.1)

/-- `compare_endpoint`: computes the comparison result, appends it to
`self.results`, and returns it. (The state write `self.results.append(result)`
is the only mutation; the computation itself reads only the base URLs and
the arguments.) -/
def compare_endpoint (net : Network) (c : APIComparator) (method path : String)
    (body : Option Json) (headers params : Option (List (String × String))) :
    APIComparator × ComparisonResult :=
  let result := compareResult net c.express_base c.fastify_base method path body headers params
  ({ c with results := c.results ++ [result] }, result)

/-- One endpoint descriptor of the config file: `run_test_suite` reads
`endpoint.get('method', 'GET')`, `endpoint['path']`, and the optional
body/headers/params. -/
structure EndpointSpec where
  method : Option String
  path : String
  body : Option Json
  headers : Option (List (String × String))
  params : Option (List (String × String))

/-- The endpoint loop of `run_test_suite`: calls `compare_endpoint` on each
descriptor in order, with `method` defaulting to GET. -/
def runEndpoints (net : Network) (c : APIComparator)
    (endpoints : List EndpointSpec) : APIComparator :=
  endpoints.foldl
    (fun acc ep =>
      (compare_endpoint net acc (ep.method.getD "GET") ep.path ep.body ep.headers ep.params).1)
    c

/-- `run_test_suite`: runs the endpoint loop, then computes the summary
counts and returns `failed == 0`. The summary prints
`100*passed/total`, which raises an uncaught `ZeroDivisionError` when
`total = len(self.results)` is zero; that exception is the `none` outcome. -/
def run_test_suite (net : Network) (c : APIComparator)
    (endpoints : List EndpointSpec) : Option (APIComparator × Bool) :=
  let c2 := runEndpoints net c endpoints
  let total := c2.results.length
  let passed := (c2.results.filter (fun r => r.getSuccess)).length
  let failed := total - passed
  if total = 0 then none
  else some (c2, failed == 0)

/-- The report dict built by `export_report`. -/
structure Report where
  express_base : String
  fastify_base : String
  total_tests : Nat
  passed : Nat
  results : List ComparisonResult
deriving DecidableEq

/-- The report value assembled by `export_report` from the comparator state. -/
def mkReport (c : APIComparator) : Report :=
  { express_base := c.express_base,
    fastify_base := c.fastify_base,
    total_tests := c.results.length,
    passed := (c.results.filter (fun r => r.getSuccess)).length,
    results := c.results }

/-- `export_report`: `open(filename, 'w')` followed by `json.dump(report, f,
indent=2)`, i.e. the file system (a map from names to report contents) is
updated at `filename` with the serialized report, replacing whatever was
there. -/
def export_report (c : APIComparator) (filename : String)
    (fs : String → Option Report) : String → Option Report :=
  fun n => if n = filename then some (mkReport c) else fs n

/-! Helper lemmas about the order-insensitive deep equality. -/

theorem memEq_iff (x : Json) (ys : List Json) :
    memEq x ys = true ↔ ∃ y, y ∈ ys ∧ jsonEq x y = true := by
  induction ys with
  | nil => simp [memEq]
  | cons y ys ih => simp [memEq, ih, Bool.or_eq_true, List.mem_cons, or_and_right, exists_or,
      exists_eq_left]

theorem subsetEq_iff (xs ys : List Json) :
    subsetEq xs ys = true ↔ ∀ x, x ∈ xs → memEq x ys = true := by
  induction xs with
  | nil => simp [subsetEq]
  | cons x xs ih => simp [subsetEq, Bool.and_eq_true, ih, List.mem_cons, forall_eq_or_imp]

theorem objMemEq_iff (k : String) (v : Json) (gs : List (String × Json)) :
    objMemEq (k, v) gs = true ↔ ∃ g, g ∈ gs ∧ k = g.1 ∧ jsonEq v g.2 = true := by
  induction gs with
  | nil => simp [objMemEq]
  | cons g gs ih =>
      cases g with
      | mk k2 w =>
          simp [objMemEq, ih, Bool.or_eq_true, Bool.and_eq_true, List.mem_cons, or_and_right,
            exists_or, exists_eq_left, beq_iff_eq]

theorem objSubEq_iff (fx fy : List (String × Json)) :
    objSubEq fx fy = true ↔ ∀ f, f ∈ fx → objMemEq f fy = true := by
  induction fx with
  | nil => simp [objSubEq]
  | cons f fx ih => simp [objSubEq, Bool.and_eq_true, ih, List.mem_cons, forall_eq_or_imp]

theorem jsonEq_comm (a b : Json) : jsonEq a b = jsonEq b a := by
  cases a <;> cases b <;> simp [jsonEq, Bool.and_comm] <;> exact eq_comm

/-- Spec-side refinement relation, following the specification words
"structural, order-insensitive deep comparison" / "equal up to reordering of
sequence elements and mapping key order": two JSON trees are related when one
is obtained from the other by permuting sequence elements and mapping entries
at any depth (each left element/entry matched, order-insensitively, with a
recursively related right element/entry). -/
inductive JsonPermEq : Json → Json → Prop where
  | null : JsonPermEq .null .null
  | bool (x : Bool) : JsonPermEq (.bool x) (.bool x)
  | num (x : Int) : JsonPermEq (.num x) (.num x)
  | str (x : String) : JsonPermEq (.str x) (.str x)
  | arrNil : JsonPermEq (.arr []) (.arr [])
  | arrCons (x y : Json) (xs ys₁ ys₂ : List Json) :
      JsonPermEq x y → JsonPermEq (.arr xs) (.arr (ys₁ ++ ys₂)) →
      JsonPermEq (.arr (x :: xs)) (.arr (ys₁ ++ y :: ys₂))
  | objNil : JsonPermEq (.obj []) (.obj [])
  | objCons (k : String) (v w : Json) (fx fy₁ fy₂ : List (String × Json)) :
      JsonPermEq v w → JsonPermEq (.obj fx) (.obj (fy₁ ++ fy₂)) →
      JsonPermEq (.obj ((k, v) :: fx)) (.obj (fy₁ ++ (k, w) :: fy₂))

theorem jsonEq_of_permEq {a b : Json} (h : JsonPermEq a b) : jsonEq a b = true := by
  induction h with
  | null => simp [jsonEq]
  | bool x => simp [jsonEq]
  | num x => simp [jsonEq]
  | str x => simp [jsonEq]
  | arrNil => simp [jsonEq, subsetEq]
  | arrCons x y xs ys₁ ys₂ hxy hrest ih1 ih2 =>
      simp only [jsonEq, Bool.and_eq_true] at ih2 ⊢
      obtain ⟨hsub1, hsub2⟩ := ih2
      rw [subsetEq_iff] at hsub1 hsub2
      constructor
      · rw [subsetEq_iff]
        intro z hz
        rcases List.mem_cons.mp hz with rfl | hz2
        · rw [memEq_iff]
          exact ⟨y, by simp, ih1⟩
        · have hm := hsub1 z hz2
          rw [memEq_iff] at hm ⊢
          obtain ⟨w, hw, hjw⟩ := hm
          refine ⟨w, ?_, hjw⟩
          simp only [List.mem_append, List.mem_cons] at hw ⊢
          tauto
      · rw [subsetEq_iff]
        intro w hw
        simp only [List.mem_append, List.mem_cons] at hw
        rcases hw with hw | rfl | hw
        · have hm := hsub2 w (by simp [List.mem_append, hw])
          rw [memEq_iff] at hm ⊢
          obtain ⟨z, hz, hjz⟩ := hm
          exact ⟨z, by simp [List.mem_cons, hz], hjz⟩
        · rw [memEq_iff]
          refine ⟨x, by simp, ?_⟩
          rw [jsonEq_comm]
          exact ih1
        · have hm := hsub2 w (by simp [List.mem_append, hw])
          rw [memEq_iff] at hm ⊢
          obtain ⟨z, hz, hjz⟩ := hm
          exact ⟨z, by simp [List.mem_cons, hz], hjz⟩
  | objNil => simp [jsonEq, objSubEq]
  | objCons k v w fx fy₁ fy₂ hvw hrest ih1 ih2 =>
      simp only [jsonEq, Bool.and_eq_true] at ih2 ⊢
      obtain ⟨hsub1, hsub2⟩ := ih2
      rw [objSubEq_iff] at hsub1 hsub2
      constructor
      · rw [objSubEq_iff]
        intro f hf
        rcases List.mem_cons.mp hf with rfl | hf2
        · rw [objMemEq_iff]
          exact ⟨(k, w), by simp, rfl, ih1⟩
        · have hm := hsub1 f hf2
          obtain ⟨fk, fv⟩ := f
          rw [objMemEq_iff] at hm ⊢
          obtain ⟨g, hg, hkg, hjg⟩ := hm
          refine ⟨g, ?_, hkg, hjg⟩
          simp only [List.mem_append, List.mem_cons] at hg ⊢
          tauto
      · rw [objSubEq_iff]
        intro g hg
        simp only [List.mem_append, List.mem_cons] at hg
        rcases hg with hg | rfl | hg
        · have hm := hsub2 g (by simp [List.mem_append, hg])
          obtain ⟨gk, gv⟩ := g
          rw [objMemEq_iff] at hm ⊢
          obtain ⟨f, hf, hkf, hjf⟩ := hm
          exact ⟨f, by simp [List.mem_cons, hf], hkf, hjf⟩
        · rw [objMemEq_iff]
          refine ⟨(k, v), by simp, rfl, ?_⟩
          rw [jsonEq_comm]
          exact ih1
        · have hm := hsub2 g (by simp [List.mem_append, hg])
          obtain ⟨gk, gv⟩ := g
          rw [objMemEq_iff] at hm ⊢
          obtain ⟨f, hf, hkf, hjf⟩ := hm
          exact ⟨f, by simp [List.mem_cons, hf], hkf, hjf⟩

theorem jsonEq_obj_false_of_value_diff {fx fy : List (String × Json)} {k : String} {v : Json}
    (hmem : (k, v) ∈ fx) (hdiff : ∀ p, p ∈ fy → p.1 = k → jsonEq v p.2 = false) :
    jsonEq (.obj fx) (.obj fy) = false := by
  cases h : jsonEq (.obj fx) (.obj fy) with
  | false => rfl
  | true =>
      exfalso
      simp only [jsonEq, Bool.and_eq_true] at h
      have hsub := (objSubEq_iff fx fy).mp h.1 (k, v) hmem
      rw [objMemEq_iff] at hsub
      obtain ⟨g, hg, hkg, hjg⟩ := hsub
      have := hdiff g hg hkg.symm
      rw [this] at hjg
      exact Bool.false_ne_true hjg

/-! Characterization of one endpoint comparison, by the outcome of the two
HTTP calls. -/

theorem compare_endpoint_eq (net : Network) (c : APIComparator) (m p : String)
    (b : Option Json) (hs ps : Option (List (String × String))) :
    compare_endpoint net c m p b hs ps =
      ({ c with results :=
          c.results ++ [compareResult net c.express_base c.fastify_base m p b hs ps] },
        compareResult net c.express_base c.fastify_base m p b hs ps) := rfl

theorem compareResult_spec (net : Network) (eb fb m p : String) (b : Option Json)
    (hs ps : Option (List (String × String))) :
    (∃ e, net (mkRequest m (urljoin eb p) b hs ps) = .exn e ∧
        compareResult net eb fb m p b hs ps = .err (pyUpper m) p false e) ∨
    (∃ er e, net (mkRequest m (urljoin eb p) b hs ps) = .ok er ∧
        net (mkRequest m (urljoin fb p) b hs ps) = .exn e ∧
        compareResult net eb fb m p b hs ps = .err (pyUpper m) p false e) ∨
    (∃ er fr, net (mkRequest m (urljoin eb p) b hs ps) = .ok er ∧
        net (mkRequest m (urljoin fb p) b hs ps) = .ok fr ∧
        compareResult net eb fb m p b hs ps =
          .mk (pyUpper m) p (er.status_code == fr.status_code)
            (compareBodies er.jsonBody fr.jsonBody er.text fr.text).1
            (headerDiff er.headers fr.headers).isEmpty
            er.status_code fr.status_code
            (compareBodies er.jsonBody fr.jsonBody er.text fr.text).2
            (headerDiff er.headers fr.headers)
            ((er.status_code == fr.status_code) &&
              (compareBodies er.jsonBody fr.jsonBody er.text fr.text).1)) := by
  simp only [compareResult]
  cases h1 : net (mkRequest m (urljoin eb p) b hs ps) with
  | exn e => exact Or.inl ⟨e, rfl, rfl⟩
  | ok er =>
      cases h2 : net (mkRequest m (urljoin fb p) b hs ps) with
      | exn e => exact Or.inr (Or.inl ⟨er, e, rfl, rfl, rfl⟩)
      | ok fr => exact Or.inr (Or.inr ⟨er, fr, rfl, rfl, rfl⟩)

/-! Concrete fixtures used by the witness theorems. -/

/-- A plain-text 200 response (body does not parse as JSON). -/
def respText : Response :=
  { status_code := 200, headers := [], text := "pong", jsonBody := none }

/-- A JSON 200 response whose raw text is "1". -/
def respNum : Response :=
  { status_code := 200, headers := [], text := "1", jsonBody := some (.num 1) }

/-- A network on which every request succeeds with `respText`. -/
def netOk : Network := fun _ => .ok respText

/-- A network on which every request raises a connection error. -/
def netDown : Network := fun _ => .exn "Connection refused"

/-- A network on which the express call succeeds and the fastify call times
out. -/
def netHalf : Network := fun r =>
  if r.url = urljoin "http://e" "/p" then .ok respText else .exn "Read timed out"

/-- A network returning text on the express side and JSON on the fastify
side. -/
def netMixed : Network := fun r =>
  if r.url = urljoin "http://e" "/p" then .ok respText else .ok respNum

/-- A fresh comparator over two fixed base URLs. -/
def comp0 : APIComparator :=
  { express_base := "http://e", fastify_base := "http://f", results := [] }

/-- C1: for every ComparisonResult produced by compare_endpoint without a
transport error (the full dict variant), the success field equals the
conjunction of status_match and body_match — so a status-code mismatch forces
success = false regardless of body equality, and headers_match plays no part
in success. -/
theorem compare_endpoint_success_invariant
    (net : Network) (c : APIComparator) (m p : String) (b : Option Json)
    (hs ps : Option (List (String × String)))
    (mm pp : String) (sm bm hm : Bool) (es fs : Nat)
    (bd : Option BodyDiff) (hd : List (String × Option String × Option String)) (su : Bool)
    (h : (compare_endpoint net c m p b hs ps).2 =
      ComparisonResult.mk mm pp sm bm hm es fs bd hd su) :
    su = (sm && bm) := by
  rw [compare_endpoint_eq] at h
  rcases compareResult_spec net c.express_base c.fastify_base m p b hs ps with
    ⟨e, _, hr⟩ | ⟨er, e, _, _, hr⟩ | ⟨er, fr, _, _, hr⟩ <;>
    rw [hr] at h
  · simp at h
  · simp at h
  · simp only [ComparisonResult.mk.injEq] at h
    obtain ⟨h1, h2, h3, h4, h5, h6, h7, h8, h9, h10⟩ := h
    subst h3
    subst h4
    subst h10
    rfl

theorem compare_endpoint_success_invariant_w : (true : Bool) = (true && true) :=
  compare_endpoint_success_invariant netOk comp0 "get" "/p" none none none
    (pyUpper "get") "/p" true true true 200 200 none [] true rfl

/-- C10: in both outcomes (normal comparison and the transport-error
variant), the method field of the produced ComparisonResult is the
upper-cased form of the supplied method string. -/
theorem compare_endpoint_method_upper (net : Network) (c : APIComparator) (m p : String)
    (b : Option Json) (hs ps : Option (List (String × String))) :
    ((compare_endpoint net c m p b hs ps).2).getMethod = pyUpper m := by
  have hpair : (compare_endpoint net c m p b hs ps).2 =
      compareResult net c.express_base c.fastify_base m p b hs ps := rfl
  rw [hpair]
  rcases compareResult_spec net c.express_base c.fastify_base m p b hs ps with
    ⟨e, _, hr⟩ | ⟨er, e, _, _, hr⟩ | ⟨er, fr, _, _, hr⟩ <;> rw [hr] <;> rfl

theorem compare_endpoint_snd_const (net : Network) (c : APIComparator)
    (X : List ComparisonResult) (m p : String) (b : Option Json)
    (hs ps : Option (List (String × String))) :
    (compare_endpoint net { c with results := X } m p b hs ps).2 =
      (compare_endpoint net c m p b hs ps).2 := rfl

theorem runEndpoints_results_eq (net : Network) (c : APIComparator)
    (eps : List EndpointSpec) :
    (runEndpoints net c eps).results =
      c.results ++ eps.map (fun ep =>
        (compare_endpoint net c (ep.method.getD "GET") ep.path ep.body ep.headers ep.params).2) := by
  induction eps generalizing c with
  | nil => simp [runEndpoints]
  | cons ep eps ih =>
      simp only [runEndpoints, List.foldl_cons, List.map_cons]
      have h1 : (compare_endpoint net c (ep.method.getD "GET") ep.path ep.body ep.headers ep.params).1 =
          { c with results := c.results ++
            [(compare_endpoint net c (ep.method.getD "GET") ep.path ep.body ep.headers ep.params).2] } := rfl
      rw [h1]
      have h2 := ih { c with results := c.results ++
        [(compare_endpoint net c (ep.method.getD "GET") ep.path ep.body ep.headers ep.params).2] }
      simp only [runEndpoints] at h2
      rw [h2]
      simp only [compare_endpoint_snd_const]
      simp [List.append_assoc]

/-- C7: the endpoint loop of run_test_suite appends exactly one
ComparisonResult per EndpointSpec to the result log, in input order, the
method defaulting to GET when the descriptor has none. -/
theorem run_test_suite_appends_in_order (net : Network) (c : APIComparator)
    (eps : List EndpointSpec) :
    (runEndpoints net c eps).results =
      c.results ++ eps.map (fun ep =>
        (compare_endpoint net c (ep.method.getD "GET") ep.path ep.body ep.headers ep.params).2) :=
  runEndpoints_results_eq net c eps

/-- C8: export_report writes at the given filename (overwriting whatever the
file system held there) the report with both base URLs, total_tests equal to
the number of recorded results, passed equal to the number of successful
results, and the full ordered result log; and passed never exceeds
total_tests. -/
theorem export_report_writes_report (c : APIComparator) (filename : String)
    (fs : String → Option Report) :
    export_report c filename fs filename =
      some { express_base := c.express_base, fastify_base := c.fastify_base,
             total_tests := c.results.length,
             passed := (c.results.filter (fun r => r.getSuccess)).length,
             results := c.results } ∧
    (mkReport c).passed ≤ (mkReport c).total_tests := by
  constructor
  · simp [export_report, mkReport]
  · exact List.length_filter_le _ _

/-- C9: on the empty endpoint list (fresh comparator) run_test_suite records
zero results and the percentage summary divides by zero, so no value is
returned; in general the summary returns a value exactly when at least one
result was recorded. -/
theorem run_test_suite_empty_crashes :
    (∀ (net : Network) (eb fb : String),
        run_test_suite net { express_base := eb, fastify_base := fb, results := [] } [] = none) ∧
    (∀ (net : Network) (c : APIComparator) (eps : List EndpointSpec),
        run_test_suite net c eps = none ↔ (runEndpoints net c eps).results = []) := by
  constructor
  · intro net eb fb
    rfl
  · intro net c eps
    by_cases h : (runEndpoints net c eps).results.length = 0
    · simp only [run_test_suite, h, if_pos]
      simp [List.length_eq_zero.mp h]
    · simp only [run_test_suite, if_neg h]
      simp only [reduceCtorEq, false_iff]
      intro hc
      exact h (by rw [hc]; rfl)

theorem length_sub_filter_eq_zero_iff (l : List ComparisonResult) :
    (l.length - (l.filter (fun r => r.getSuccess)).length == 0) = true ↔
      ∀ r ∈ l, r.getSuccess = true := by
  rw [beq_iff_eq]
  constructor
  · intro h r hr
    have hle := List.length_filter_le (fun r => r.getSuccess) l
    have hlen : (l.filter (fun r => r.getSuccess)).length = l.length := by omega
    have heq : l.filter (fun r => r.getSuccess) = l :=
      (List.filter_sublist l).eq_of_length hlen
    have hmem : r ∈ l.filter (fun r => r.getSuccess) := by rw [heq]; exact hr
    exact (List.mem_filter.mp hmem).2
  · intro h
    have heq : l.filter (fun r => r.getSuccess) = l := List.filter_eq_self.mpr h
    rw [heq]
    omega

/-- C2 counterexample: on the empty endpoint list a fresh run does not return
true; the summary divides by zero and nothing is returned. -/
theorem run_test_suite_empty_no_value :
    run_test_suite netDown comp0 [] = none := rfl

/-- C2 (amended): whenever run_test_suite does return a value (i.e. at least
one result was recorded, so the percentage summary does not divide by zero),
that value is true iff every recorded ComparisonResult has success = true,
and false iff at least one has success = false. On the empty endpoint list
with no prior results nothing is returned. -/
theorem run_test_suite_true_iff_all_success
    (net : Network) (c : APIComparator) (eps : List EndpointSpec)
    (c2 : APIComparator) (ok : Bool)
    (h : run_test_suite net c eps = some (c2, ok)) :
    ok = true ↔ ∀ r ∈ c2.results, r.getSuccess = true := by
  simp only [run_test_suite] at h
  split at h
  · exact Option.noConfusion h
  · simp only [Option.some.injEq, Prod.mk.injEq] at h
    obtain ⟨hc2, hok⟩ := h
    subst hc2
    subst hok
    exact length_sub_filter_eq_zero_iff (runEndpoints net c eps).results

/-- One endpoint descriptor with no explicit method. -/
def ep0 : EndpointSpec :=
  { method := none, path := "/p", body := none, headers := none, params := none }

theorem run_test_suite_true_iff_all_success_w :
    ((false = true) ↔ ∀ r ∈ (APIComparator.mk "http://e" "http://f"
        [ComparisonResult.err (pyUpper "GET") "/p" false "Connection refused"]).results,
      r.getSuccess = true) :=
  run_test_suite_true_iff_all_success netDown comp0 [ep0]
    (APIComparator.mk "http://e" "http://f"
      [ComparisonResult.err (pyUpper "GET") "/p" false "Connection refused"])
    false rfl

/-- C4: a transport-level failure (raised RequestException) on the reference
call, or on the candidate call after a delivered reference response, makes
compare_endpoint record exactly one error-variant result (method, path,
success = false, the error string; no comparison fields exist on that
variant), appended once to the log; and the endpoint loop still processes
every remaining endpoint afterwards. -/
theorem compare_endpoint_transport_error
    (net : Network) (c : APIComparator) (m p : String) (b : Option Json)
    (hs ps : Option (List (String × String))) (e : String)
    (h : net (mkRequest m (urljoin c.express_base p) b hs ps) = .exn e ∨
      (∃ er, net (mkRequest m (urljoin c.express_base p) b hs ps) = .ok er ∧
        net (mkRequest m (urljoin c.fastify_base p) b hs ps) = .exn e)) :
    (compare_endpoint net c m p b hs ps).2 = ComparisonResult.err (pyUpper m) p false e ∧
    (compare_endpoint net c m p b hs ps).1.results =
      c.results ++ [ComparisonResult.err (pyUpper m) p false e] ∧
    ∀ eps : List EndpointSpec,
      (runEndpoints net ((compare_endpoint net c m p b hs ps).1) eps).results.length =
        c.results.length + 1 + eps.length := by
  have hcr : compareResult net c.express_base c.fastify_base m p b hs ps =
      ComparisonResult.err (pyUpper m) p false e := by
    rcases h with h1 | ⟨er, h1, h2⟩
    · simp only [compareResult]
      rw [h1]
    · simp only [compareResult]
      rw [h1, h2]
  refine ⟨?_, ?_, ?_⟩
  · exact hcr
  · show c.results ++ [compareResult net c.express_base c.fastify_base m p b hs ps] =
      c.results ++ [ComparisonResult.err (pyUpper m) p false e]
    rw [hcr]
  · intro eps
    rw [runEndpoints_results_eq]
    simp [compare_endpoint_eq]
    omega

theorem compare_endpoint_transport_error_w :
    (compare_endpoint netDown comp0 "get" "/p" none none none).2 =
      ComparisonResult.err (pyUpper "get") "/p" false "Connection refused" ∧
    (compare_endpoint netDown comp0 "get" "/p" none none none).1.results =
      [] ++ [ComparisonResult.err (pyUpper "get") "/p" false "Connection refused"] ∧
    ∀ eps : List EndpointSpec,
      (runEndpoints netDown ((compare_endpoint netDown comp0 "get" "/p" none none none).1) eps).results.length =
        ([] : List ComparisonResult).length + 1 + eps.length :=
  compare_endpoint_transport_error netDown comp0 "get" "/p" none none none
    "Connection refused" (Or.inl rfl)

/-- C5: when both calls are delivered but at least one body fails to parse as
JSON, the result is the normal (non-error) variant and body_match is exact
equality of the raw body texts. -/
theorem compare_endpoint_text_fallback
    (net : Network) (c : APIComparator) (m p : String) (b : Option Json)
    (hs ps : Option (List (String × String))) (er fr : Response)
    (h1 : net (mkRequest m (urljoin c.express_base p) b hs ps) = .ok er)
    (h2 : net (mkRequest m (urljoin c.fastify_base p) b hs ps) = .ok fr)
    (h3 : er.jsonBody = none ∨ fr.jsonBody = none) :
    (compare_endpoint net c m p b hs ps).2 =
      ComparisonResult.mk (pyUpper m) p (er.status_code == fr.status_code)
        (er.text == fr.text) (headerDiff er.headers fr.headers).isEmpty
        er.status_code fr.status_code
        (if er.text == fr.text then none else some BodyDiff.textDiff)
        (headerDiff er.headers fr.headers)
        ((er.status_code == fr.status_code) && (er.text == fr.text)) := by
  have hcb : compareBodies er.jsonBody fr.jsonBody er.text fr.text =
      (er.text == fr.text, if er.text == fr.text then none else some BodyDiff.textDiff) := by
    rcases h3 with h3 | h3
    · rw [h3]
      cases fr.jsonBody <;> simp [compareBodies]
    · rw [h3]
      cases er.jsonBody <;> simp [compareBodies]
  show compareResult net c.express_base c.fastify_base m p b hs ps = _
  simp only [compareResult, h1, h2]
  rw [hcb]

theorem compare_endpoint_text_fallback_w :
    (compare_endpoint netMixed comp0 "get" "/p" none none none).2 =
      ComparisonResult.mk (pyUpper "get") "/p"
        (respText.status_code == respNum.status_code)
        (respText.text == respNum.text)
        (headerDiff respText.headers respNum.headers).isEmpty
        respText.status_code respNum.status_code
        (if respText.text == respNum.text then none else some BodyDiff.textDiff)
        (headerDiff respText.headers respNum.headers)
        ((respText.status_code == respNum.status_code) && (respText.text == respNum.text)) :=
  compare_endpoint_text_fallback netMixed comp0 "get" "/p" none none none
    respText respNum rfl rfl (Or.inl rfl)

theorem headerDiff_allowlist_mem (eh fh : List (String × String))
    (x : String × Option String × Option String) (hx : x ∈ headerDiff eh fh) :
    (x.1 = "content-type" ∨ x.1 = "content-length") ∧
    x.2.1 = headerGet eh x.1 ∧ x.2.2 = headerGet fh x.1 ∧ x.2.1 ≠ x.2.2 := by
  simp only [headerDiff, List.mem_filterMap] at hx
  obtain ⟨a, ha, hfa⟩ := hx
  split at hfa
  · rename_i hne
    simp only [Option.some.injEq] at hfa
    subst hfa
    refine ⟨?_, rfl, rfl, hne⟩
    simpa [relevant_headers] using ha
  · exact Option.noConfusion hfa

/-- C6: header_diff only ever holds entries for the allow-listed headers
content-type and content-length, each recorded with both observed values
(which differ); any other header can never appear; and the headers_match
field of a non-error result is exactly the emptiness of its header_diff. -/
theorem header_diff_allowlist :
    (∀ (eh fh : List (String × String)) (x : String × Option String × Option String),
        x ∈ headerDiff eh fh →
        (x.1 = "content-type" ∨ x.1 = "content-length") ∧
        x.2.1 = headerGet eh x.1 ∧ x.2.2 = headerGet fh x.1 ∧ x.2.1 ≠ x.2.2) ∧
    (∀ (net : Network) (c : APIComparator) (m p : String) (b : Option Json)
        (hs ps : Option (List (String × String)))
        (mm pp : String) (sm bm hm : Bool) (es fs : Nat) (bd : Option BodyDiff)
        (hd : List (String × Option String × Option String)) (su : Bool),
        (compare_endpoint net c m p b hs ps).2 =
          ComparisonResult.mk mm pp sm bm hm es fs bd hd su →
        hm = hd.isEmpty) := by
  constructor
  · exact headerDiff_allowlist_mem
  · intro net c m p b hs ps mm pp sm bm hm es fs bd hd su h
    rw [compare_endpoint_eq] at h
    rcases compareResult_spec net c.express_base c.fastify_base m p b hs ps with
      ⟨e, _, hr⟩ | ⟨er, e, _, _, hr⟩ | ⟨er, fr, _, _, hr⟩ <;>
      rw [hr] at h
    · simp at h
    · simp at h
    · simp only [ComparisonResult.mk.injEq] at h
      obtain ⟨h1, h2, h3, h4, h5, h6, h7, h8, h9, h10⟩ := h
      subst h5
      subst h9
      rfl

theorem header_diff_allowlist_w :
    ((("content-type", some "text/html", (none : Option String)).1 = "content-type" ∨
        ("content-type", some "text/html", (none : Option String)).1 = "content-length") ∧
      ("content-type", some "text/html", (none : Option String)).2.1 =
        headerGet [("content-type", "text/html")] ("content-type", some "text/html", (none : Option String)).1 ∧
      ("content-type", some "text/html", (none : Option String)).2.2 =
        headerGet [] ("content-type", some "text/html", (none : Option String)).1 ∧
      ("content-type", some "text/html", (none : Option String)).2.1 ≠
        ("content-type", some "text/html", (none : Option String)).2.2) ∧
    (true : Bool) = ([] : List (String × Option String × Option String)).isEmpty :=
  ⟨header_diff_allowlist.1 [("content-type", "text/html")] []
      ("content-type", some "text/html", none) (by decide),
    header_diff_allowlist.2 netOk comp0 "get" "/p" none none none
      (pyUpper "get") "/p" true true true 200 200 none [] true rfl⟩

/-- C3: for bodies that both parse as JSON, the body comparison is
order-insensitive: values equal up to reordering of sequence elements and
mapping entries give body_match = true with an empty DeepDiff; while an
object field whose value matches no same-key field on the other side gives
body_match = false and a non-empty DeepDiff. -/
theorem body_comparison_order_insensitive :
    (∀ (a b : Json) (et ft : String), JsonPermEq a b →
        compareBodies (some a) (some b) et ft = (true, some (BodyDiff.deep []))) ∧
    (∀ (fx fy : List (String × Json)) (k : String) (v : Json) (et ft : String),
        (k, v) ∈ fx → (∀ q, q ∈ fy → q.1 = k → jsonEq v q.2 = false) →
        (compareBodies (some (.obj fx)) (some (.obj fy)) et ft).1 = false ∧
        deepDiffEntries (.obj fx) (.obj fy) ≠ []) := by
  constructor
  · intro a b et ft h
    have heq := jsonEq_of_permEq h
    simp [compareBodies, deepDiffEntries, heq]
  · intro fx fy k v et ft hmem hdiff
    have hf := jsonEq_obj_false_of_value_diff hmem hdiff
    constructor
    · simp [compareBodies, deepDiffEntries, hf]
    · simp [deepDiffEntries, hf]

theorem permEx : JsonPermEq (.arr [.num 1, .num 2]) (.arr [.num 2, .num 1]) :=
  JsonPermEq.arrCons (.num 1) (.num 1) [.num 2] [.num 2] [] (JsonPermEq.num 1)
    (JsonPermEq.arrCons (.num 2) (.num 2) [] [] [] (JsonPermEq.num 2) JsonPermEq.arrNil)

theorem body_comparison_order_insensitive_w :
    compareBodies (some (.arr [.num 1, .num 2])) (some (.arr [.num 2, .num 1])) "" "" =
      (true, some (BodyDiff.deep [])) ∧
    ((compareBodies (some (.obj [("a", .num 1)])) (some (.obj [("a", .num 2)])) "" "").1 = false ∧
      deepDiffEntries (.obj [("a", .num 1)]) (.obj [("a", .num 2)]) ≠ []) :=
  ⟨body_comparison_order_insensitive.1 _ _ "" "" permEx,
    body_comparison_order_insensitive.2 [("a", .num 1)] [("a", .num 2)] "a" (.num 1) "" ""
      (by simp)
      (by
        intro q hq hk
        simp only [List.mem_singleton] at hq
        subst hq
        simp [jsonEq])⟩
